import Mathlib

/-!
Shallow embedding of the TGP Economic Scheduler core.

Sources embedded:
- `src/core/cost-engine/src/lib.rs` — `TotalCost`, `CostCalculator`
- `src/core/scheduler/src/lib.rs` — `EconomicScheduler` and its data model

Modelling conventions:
- Rust `f64` is modelled as `ℚ` (all arithmetic the core performs on costs —
  products with the literals 1.0 and 0.0 and sums with 0.0 — is exact in IEEE
  double precision, so the rational model agrees with the floating-point code
  on the values the claims are about).
- Rust `u32`/`u64` are modelled as `Nat` (no arithmetic that could overflow is
  performed on them: they are only compared).
- `HashMap<String, V>` stores are modelled as association lists keyed by the
  id field, with insert-replacing-by-key semantics.  The map's iteration
  order, which Rust leaves unspecified, becomes the order of the list handed
  to the placement loop; theorems about order-(in)dependence quantify over or
  vary that order explicitly.
- The `Arc<Mutex<...>>` state of `EconomicScheduler` becomes an explicit
  `SchedulerState` threaded through the operations; the fallible `schedule`
  returns `Except SchedError Placement` together with the updated state.
-/

/-- Source `TotalCost` from `src/core/cost-engine/src/lib.rs`. -/
structure TotalCost where
  compute_usd : ℚ
  data_transfer_usd : ℚ
  idle_opportunity_usd : ℚ
  total_usd : ℚ
  deriving DecidableEq

/-- Source `TotalCost::new`: the only constructor the core uses; `total_usd` is set
to the sum of the three components. -/
def TotalCost.new (compute data_transfer idle : ℚ) : TotalCost :=
  { compute_usd := compute
    data_transfer_usd := data_transfer
    idle_opportunity_usd := idle
    total_usd := compute + data_transfer + idle }

/-- Source `CostCalculator::compute_cost`. -/
def compute_cost (instance_price_per_hour duration_hours utilization_factor : ℚ) : ℚ :=
  instance_price_per_hour * duration_hours * utilization_factor

/-- Source `CostCalculator::data_transfer_cost`. -/
def data_transfer_cost (data_size_gb transfer_price_per_gb : ℚ) : ℚ :=
  data_size_gb * transfer_price_per_gb

/-- Source `CostCalculator::idle_opportunity_cost`. -/
def idle_opportunity_cost (idle_capacity_hours opportunity_cost_per_hour : ℚ) : ℚ :=
  idle_capacity_hours * opportunity_cost_per_hour

/-- Source `CostCalculator::total_cost` (the `CostCalculator` struct is stateless,
so its methods are modelled as free functions). -/
def total_cost (instance_price_per_hour duration_hours utilization_factor
    data_size_gb transfer_price_per_gb idle_capacity_hours
    opportunity_cost_per_hour : ℚ) : TotalCost :=
  TotalCost.new
    (compute_cost instance_price_per_hour duration_hours utilization_factor)
    (data_transfer_cost data_size_gb transfer_price_per_gb)
    (idle_opportunity_cost idle_capacity_hours opportunity_cost_per_hour)

/-- Source `JobType` from the scheduler crate. -/
inductive JobType where
  | Training
  | Inference
  | DataProcessing
  deriving DecidableEq

/-- Source `ResourceRequirements`. -/
structure ResourceRequirements where
  cpu_cores : Nat
  memory_gb : Nat
  gpu_count : Nat
  disk_gb : Nat
  deriving DecidableEq

/-- Source `SlaConstraints` (`deadline` is carried but unused by placement). -/
structure SlaConstraints where
  max_latency_ms : Nat
  max_budget_usd : Option ℚ
  deadline : Option Int
  deriving DecidableEq

/-- Source `JobSpec`. -/
structure JobSpec where
  id : String
  job_type : JobType
  resources : ResourceRequirements
  sla : SlaConstraints
  deriving DecidableEq

/-- Source `Placement`. -/
structure Placement where
  job_id : String
  node_id : String
  estimated_cost : TotalCost
  estimated_latency_ms : Nat
  deriving DecidableEq

/-- Source `JobStatus`. -/
inductive JobStatus where
  | Pending
  | Scheduled
  | Running
  | Completed
  | Failed
  deriving DecidableEq

/-- Source `JobState`. -/
structure JobState where
  job_id : String
  status : JobStatus
  assigned_node : Option String
  estimated_cost : Option TotalCost
  deriving DecidableEq

/-- Source `NodeInfo`. -/
structure NodeInfo where
  id : String
  available_cpu : Nat
  available_memory_gb : Nat
  available_gpu : Nat
  location : String
  cost_per_hour : ℚ
  deriving DecidableEq

/-- The mutable state of `EconomicScheduler`: the node registry
(`available_nodes: HashMap<String, NodeInfo>`) and the job state store
(`job_states: HashMap<String, JobState>`), as association lists keyed by
the respective id. -/
structure SchedulerState where
  available_nodes : List NodeInfo
  job_states : List JobState
  deriving DecidableEq

/-- Source `HashMap::insert` on the node registry: replace the entry keyed by
`node.id`, or add the node if the key is absent. -/
def insertNodeInfo : List NodeInfo → NodeInfo → List NodeInfo
  | [], node => [node]
  | m :: rest, node =>
      if m.id == node.id then node :: rest else m :: insertNodeInfo rest node

/-- Source `EconomicScheduler::register_node`. -/
def register_node (s : SchedulerState) (node : NodeInfo) : SchedulerState :=
  { s with available_nodes := insertNodeInfo s.available_nodes node }

/-- Source `EconomicScheduler::node_count`. -/
def node_count (s : SchedulerState) : Nat :=
  s.available_nodes.length

/-- Source `EconomicScheduler::cluster_status`. -/
def cluster_status (s : SchedulerState) : List NodeInfo :=
  s.available_nodes

/-- Source `HashMap::insert` on the job state store: replace the entry keyed by
`entry.job_id`, or add it if the key is absent. -/
def insertJob : List JobState → JobState → List JobState
  | [], entry => [entry]
  | st :: rest, entry =>
      if st.job_id == entry.job_id then entry :: rest else st :: insertJob rest entry

/-- Source `HashMap::get` on the job state store. -/
def lookupJob (store : List JobState) (job_id : String) : Option JobState :=
  store.find? (fun st => st.job_id == job_id)

/-- Source `EconomicScheduler::get_job_state`. -/
def get_job_state (s : SchedulerState) (job_id : String) : Option JobState :=
  lookupJob s.job_states job_id

/-- The mutation `update_job_state` performs on the record whose key matches:
set `status` unconditionally and overwrite `assigned_node` only when a node
is provided. -/
def applyUpdate (job_id : String) (status : JobStatus) (assigned_node : Option String)
    (st : JobState) : JobState :=
  if st.job_id == job_id then
    { st with
        status := status
        assigned_node :=
          match assigned_node with
          | some node => some node
          | none => st.assigned_node }
  else st

/-- Source `EconomicScheduler::update_job_state`: mutate the record for `job_id` in
place if it exists; silently do nothing otherwise. -/
def update_job_state (s : SchedulerState) (job_id : String) (status : JobStatus)
    (assigned_node : Option String) : SchedulerState :=
  { s with job_states := s.job_states.map (applyUpdate job_id status assigned_node) }

/-- The mutation `schedule` performs after a successful placement:
`state.estimated_cost = Some(...)` on the record whose key matches. -/
def applySetCost (job_id : String) (cost : TotalCost) (st : JobState) : JobState :=
  if st.job_id == job_id then { st with estimated_cost := some cost } else st

/-- The `states.get_mut(&job.id)` block of `schedule` that stores the cost
estimate on the job record. -/
def setEstimatedCost (s : SchedulerState) (job_id : String) (cost : TotalCost) :
    SchedulerState :=
  { s with job_states := s.job_states.map (applySetCost job_id cost) }

/-- Source `EconomicScheduler::check_resource_fit`. -/
def check_resource_fit (required : ResourceRequirements) (node : NodeInfo) : Bool :=
  decide (node.available_cpu ≥ required.cpu_cores)
    && decide (node.available_memory_gb ≥ required.memory_gb)
    && decide (node.available_gpu ≥ required.gpu_count)

/-- Source `EconomicScheduler::estimate_latency`. -/
def estimate_latency (node : NodeInfo) : Nat :=
  let base_latency := 50
  let cpu_pressure := if node.available_cpu < 2 then 50 else 0
  let mem_pressure := if node.available_memory_gb < 2 then 30 else 0
  base_latency + cpu_pressure + mem_pressure

/-- The budget rejection test of `schedule`: reject when a budget is set and
the total cost strictly exceeds it. -/
def budgetExceeded (max_budget_usd : Option ℚ) (total_usd : ℚ) : Bool :=
  match max_budget_usd with
  | some max_budget => decide (max_budget < total_usd)
  | none => false

/-- The `cost.total_usd < min_cost` test of the placement loop.  In the
source `min_cost` starts at `f64::MAX` and thereafter always equals the
retained placement's `total_usd`; `none` plays the role of the `f64::MAX`
sentinel, which every finite candidate cost beats. -/
def betterThan (total_usd : ℚ) : Option Placement → Bool
  | none => true
  | some best => decide (total_usd < best.estimated_cost.total_usd)

/-- The placement the loop body builds for a retained node. -/
def mkPlacement (job : JobSpec) (node : NodeInfo) : Placement :=
  { job_id := job.id
    node_id := node.id
    estimated_cost := total_cost node.cost_per_hour 1 1 0 0 0 0
    estimated_latency_ms := estimate_latency node }

/-- One iteration of the placement loop of `schedule`: filter on resource
fit, then latency SLA, then budget, and retain the node when its cost beats
the best so far. -/
def considerNode (job : JobSpec) (best : Option Placement) (node : NodeInfo) :
    Option Placement :=
  if check_resource_fit job.resources node = false then best
  else
    let cost := total_cost node.cost_per_hour 1 1 0 0 0 0
    let estimated_latency := estimate_latency node
    if decide (estimated_latency > job.sla.max_latency_ms) then best
    else if budgetExceeded job.sla.max_budget_usd cost.total_usd then best
    else if betterThan cost.total_usd best then some (mkPlacement job node)
    else best

/-- The full placement loop (`for node in nodes.values() { ... }`) over the
snapshot in a given iteration order. -/
def placeJob (job : JobSpec) (nodes : List NodeInfo) : Option Placement :=
  nodes.foldl (considerNode job) none

/-- The composite filter of steps 3–7: a node survives the resource-fit,
latency-SLA and budget checks of the loop body. -/
def feasible (job : JobSpec) (node : NodeInfo) : Bool :=
  check_resource_fit job.resources node
    && !(decide (estimate_latency node > job.sla.max_latency_ms))
    && !(budgetExceeded job.sla.max_budget_usd
          (total_cost node.cost_per_hour 1 1 0 0 0 0).total_usd)

/-- The total cost `schedule` computes for a node (Formula 4.1 with the
hard-coded inputs: one hour, full utilization, no data transfer, no idle). -/
def nodeCost (node : NodeInfo) : ℚ :=
  (total_cost node.cost_per_hour 1 1 0 0 0 0).total_usd

/-- The two failure kinds `schedule` can report. -/
inductive SchedError where
  | NoNodesAvailable
  | NoFeasiblePlacement
  deriving DecidableEq

/-- The fresh record `schedule` inserts for the submitted job id. -/
def createJobState (job_id : String) : JobState :=
  { job_id := job_id
    status := JobStatus.Pending
    assigned_node := none
    estimated_cost := none }

/-- Source `EconomicScheduler::schedule`: insert a fresh `Pending` record for the
job id, snapshot the registry, fail on an empty cluster, otherwise run the
placement loop and finalize the job record according to the outcome. -/
def schedule (s : SchedulerState) (job : JobSpec) :
    SchedulerState × Except SchedError Placement :=
  let s1 : SchedulerState :=
    { s with job_states := insertJob s.job_states (createJobState job.id) }
  let nodes := s1.available_nodes
  if nodes.isEmpty then
    (update_job_state s1 job.id JobStatus.Failed none,
     Except.error SchedError.NoNodesAvailable)
  else
    match placeJob job nodes with
    | some placement =>
        (setEstimatedCost
          (update_job_state s1 job.id JobStatus.Scheduled (some placement.node_id))
          job.id placement.estimated_cost,
         Except.ok placement)
    | none =>
        (update_job_state s1 job.id JobStatus.Failed none,
         Except.error SchedError.NoFeasiblePlacement)

/-! ### Basic lemmas about the placement loop -/

theorem mkPlacement_total (job : JobSpec) (node : NodeInfo) :
    (mkPlacement job node).estimated_cost.total_usd = nodeCost node := rfl

theorem mkPlacement_cost (job : JobSpec) (node : NodeInfo) :
    (mkPlacement job node).estimated_cost = total_cost node.cost_per_hour 1 1 0 0 0 0 := rfl

theorem mkPlacement_node_id (job : JobSpec) (node : NodeInfo) :
    (mkPlacement job node).node_id = node.id := rfl

theorem considerNode_eq (job : JobSpec) (best : Option Placement) (node : NodeInfo) :
    considerNode job best node =
      if (feasible job node && betterThan (nodeCost node) best) = true
      then some (mkPlacement job node) else best := by
  simp only [considerNode, feasible, nodeCost]
  by_cases h1 : check_resource_fit job.resources node = true
  · by_cases h2 : estimate_latency node > job.sla.max_latency_ms
    · simp [h1, h2]
    · by_cases h3 : budgetExceeded job.sla.max_budget_usd
          (total_cost node.cost_per_hour 1 1 0 0 0 0).total_usd = true
      · simp [h1, h2, h3]
      · simp [h1, h2, h3]
  · simp [Bool.not_eq_true] at h1
    simp [h1]

/-- Loop invariant of the placement loop: running the loop body over `nodes`
starting from `acc` (1) returns `acc` itself or the placement of some
feasible node of `nodes`, (2) returns a placement at least as cheap as every
feasible node of `nodes`, and (3) returns a placement at least as cheap as
`acc` whenever `acc` already holds one. -/
theorem foldl_considerNode_spec (job : JobSpec) (nodes : List NodeInfo) :
    ∀ acc : Option Placement,
      (List.foldl (considerNode job) acc nodes = acc ∨
        ∃ n, n ∈ nodes ∧ feasible job n = true ∧
          List.foldl (considerNode job) acc nodes = some (mkPlacement job n)) ∧
      (∀ n, n ∈ nodes → feasible job n = true →
        ∃ p, List.foldl (considerNode job) acc nodes = some p ∧
          p.estimated_cost.total_usd ≤ nodeCost n) ∧
      (∀ a, acc = some a →
        ∃ p, List.foldl (considerNode job) acc nodes = some p ∧
          p.estimated_cost.total_usd ≤ a.estimated_cost.total_usd) := by
  induction nodes with
  | nil =>
    intro acc
    refine ⟨Or.inl rfl, ?_, ?_⟩
    · intro n hn
      cases hn
    · intro a ha
      exact ⟨a, by simp [ha], le_refl _⟩
  | cons node rest ih =>
    intro acc
    simp only [List.foldl_cons]
    rcases ih (considerNode job acc node) with ⟨hshape, hmin, hacc⟩
    by_cases hf : feasible job node = true
    · by_cases hb : betterThan (nodeCost node) acc = true
      · have hcn : considerNode job acc node = some (mkPlacement job node) := by
          rw [considerNode_eq]
          simp [hf, hb]
        refine ⟨?_, ?_, ?_⟩
        · rcases hshape with h | ⟨n, hn, hfn, hres⟩
          · right
            exact ⟨node, List.mem_cons_self node rest, hf, by rw [h, hcn]⟩
          · right
            exact ⟨n, List.mem_cons_of_mem node hn, hfn, hres⟩
        · intro n hn hfn
          rcases List.mem_cons.mp hn with rfl | hn'
          · rcases hacc (mkPlacement job n) hcn with ⟨p, hp, hle⟩
            rw [mkPlacement_total] at hle
            exact ⟨p, hp, hle⟩
          · exact hmin n hn' hfn
        · intro a ha
          subst ha
          have hlt : nodeCost node < a.estimated_cost.total_usd := by
            simpa [betterThan] using hb
          rcases hacc (mkPlacement job node) hcn with ⟨p, hp, hle⟩
          rw [mkPlacement_total] at hle
          exact ⟨p, hp, le_trans hle (le_of_lt hlt)⟩
      · have hcn : considerNode job acc node = acc := by
          rw [considerNode_eq]
          simp [hb]
        cases acc with
        | none => exact absurd rfl hb
        | some a0 =>
          have ha0 : a0.estimated_cost.total_usd ≤ nodeCost node := by
            have := hb
            simp [betterThan] at this
            exact this
          refine ⟨?_, ?_, ?_⟩
          · rcases hshape with h | ⟨n, hn, hfn, hres⟩
            · left
              rw [h, hcn]
            · right
              exact ⟨n, List.mem_cons_of_mem node hn, hfn, hres⟩
          · intro n hn hfn
            rcases List.mem_cons.mp hn with rfl | hn'
            · rcases hacc a0 (by rw [hcn]) with ⟨p, hp, hle⟩
              exact ⟨p, hp, le_trans hle ha0⟩
            · exact hmin n hn' hfn
          · intro a ha
            injection ha with ha
            subst ha
            exact hacc a0 (by rw [hcn])
    · have hcn : considerNode job acc node = acc := by
        rw [considerNode_eq]
        rw [Bool.not_eq_true] at hf
        simp [hf]
      refine ⟨?_, ?_, ?_⟩
      · rcases hshape with h | ⟨n, hn, hfn, hres⟩
        · left
          rw [h, hcn]
        · right
          exact ⟨n, List.mem_cons_of_mem node hn, hfn, hres⟩
      · intro n hn hfn
        rcases List.mem_cons.mp hn with rfl | hn'
        · exact absurd hfn hf
        · exact hmin n hn' hfn
      · intro a ha
        rcases hacc a (by rw [hcn, ha]) with ⟨p, hp, hle⟩
        exact ⟨p, hp, hle⟩

/-- The placement loop finds nothing exactly when no node of the snapshot
passes the three filters. -/
theorem placeJob_eq_none_iff (job : JobSpec) (nodes : List NodeInfo) :
    placeJob job nodes = none ↔ ∀ n ∈ nodes, feasible job n = false := by
  constructor
  · intro h n hn
    by_contra hf
    rw [Bool.not_eq_false] at hf
    rcases (foldl_considerNode_spec job nodes none).2.1 n hn hf with ⟨p, hp, _⟩
    rw [placeJob] at h
    rw [h] at hp
    cases hp
  · intro hall
    rcases (foldl_considerNode_spec job nodes none).1 with h | ⟨n, hn, hfn, _⟩
    · exact h
    · rw [hall n hn] at hfn
      cases hfn

/-- When the placement loop returns a placement, it is the placement of some
feasible node of the snapshot whose cost is minimal among all feasible
nodes. -/
theorem placeJob_some_spec (job : JobSpec) (nodes : List NodeInfo) (p : Placement)
    (h : placeJob job nodes = some p) :
    ∃ n, n ∈ nodes ∧ feasible job n = true ∧ p = mkPlacement job n ∧
      ∀ m ∈ nodes, feasible job m = true → nodeCost n ≤ nodeCost m := by
  rw [placeJob] at h
  rcases (foldl_considerNode_spec job nodes none).1 with h0 | ⟨n, hn, hfn, hres⟩
  · rw [h0] at h
    cases h
  · rw [h] at hres
    injection hres with hpn
    refine ⟨n, hn, hfn, hpn, ?_⟩
    intro m hm hfm
    rcases (foldl_considerNode_spec job nodes none).2.1 m hm hfm with ⟨q, hq, hle⟩
    rw [h] at hq
    injection hq with hq
    rw [← hq, hpn, mkPlacement_total] at hle
    exact hle

/-! ### Lemmas about the job state store -/

theorem applyUpdate_job_id (job_id : String) (status : JobStatus)
    (assigned_node : Option String) (st : JobState) :
    (applyUpdate job_id status assigned_node st).job_id = st.job_id := by
  unfold applyUpdate
  split <;> rfl

theorem applySetCost_job_id (job_id : String) (cost : TotalCost) (st : JobState) :
    (applySetCost job_id cost st).job_id = st.job_id := by
  unfold applySetCost
  split <;> rfl

theorem lookupJob_insertJob_self (store : List JobState) (entry : JobState) :
    lookupJob (insertJob store entry) entry.job_id = some entry := by
  induction store with
  | nil =>
    simp [insertJob, lookupJob]
  | cons st rest ih =>
    by_cases h : (st.job_id == entry.job_id) = true
    · simp [insertJob, h, lookupJob]
    · rw [insertJob, if_neg h, lookupJob,
        List.find?_cons_of_neg (p := fun t : JobState => t.job_id == entry.job_id) _ h]
      exact ih

theorem lookupJob_map (f : JobState → JobState) (hf : ∀ st, (f st).job_id = st.job_id)
    (store : List JobState) (job_id : String) :
    lookupJob (store.map f) job_id = (lookupJob store job_id).map f := by
  have hp : ((fun st => st.job_id == job_id) ∘ f) =
      (fun st : JobState => st.job_id == job_id) := by
    funext st
    simp [Function.comp, hf st]
  rw [lookupJob, List.find?_map, hp, lookupJob]


/-! ### Unfolding lemmas for `schedule` -/

theorem schedule_eq_empty (s : SchedulerState) (job : JobSpec)
    (h : s.available_nodes.isEmpty = true) :
    schedule s job =
      (update_job_state
        { s with job_states := insertJob s.job_states (createJobState job.id) }
        job.id JobStatus.Failed none,
       Except.error SchedError.NoNodesAvailable) := by
  unfold schedule
  rw [if_pos h]

theorem schedule_eq_no_feasible (s : SchedulerState) (job : JobSpec)
    (h : s.available_nodes.isEmpty = false)
    (hp : placeJob job s.available_nodes = none) :
    schedule s job =
      (update_job_state
        { s with job_states := insertJob s.job_states (createJobState job.id) }
        job.id JobStatus.Failed none,
       Except.error SchedError.NoFeasiblePlacement) := by
  unfold schedule
  rw [if_neg (by rw [h]; exact Bool.false_ne_true), hp]

theorem schedule_eq_ok (s : SchedulerState) (job : JobSpec) (p : Placement)
    (h : s.available_nodes.isEmpty = false)
    (hp : placeJob job s.available_nodes = some p) :
    schedule s job =
      (setEstimatedCost
        (update_job_state
          { s with job_states := insertJob s.job_states (createJobState job.id) }
          job.id JobStatus.Scheduled (some p.node_id))
        job.id p.estimated_cost,
       Except.ok p) := by
  unfold schedule
  rw [if_neg (by rw [h]; exact Bool.false_ne_true), hp]

/-! ### The record stored for the submitted job id -/

theorem lookupJob_update_insert (store : List JobState) (j : String)
    (status : JobStatus) (an : Option String) :
    lookupJob ((insertJob store (createJobState j)).map (applyUpdate j status an)) j =
      some (applyUpdate j status an (createJobState j)) := by
  rw [lookupJob_map _ (applyUpdate_job_id j status an)]
  rw [show lookupJob (insertJob store (createJobState j)) j = some (createJobState j) from
    lookupJob_insertJob_self store (createJobState j)]
  rfl

theorem applyUpdate_createJobState (j : String) (status : JobStatus) :
    applyUpdate j status none (createJobState j) =
      { job_id := j, status := status, assigned_node := none, estimated_cost := none } := by
  simp [applyUpdate, createJobState]

theorem final_ok_record (j : String) (nid : String) (cost : TotalCost) :
    applySetCost j cost (applyUpdate j JobStatus.Scheduled (some nid) (createJobState j)) =
      { job_id := j, status := JobStatus.Scheduled,
        assigned_node := some nid, estimated_cost := some cost } := by
  simp [applyUpdate, applySetCost, createJobState]

/-- The record that ends up stored for the submitted job id, by outcome: a
fresh `Failed` record (no node, no cost) on either failure, and a fresh
`Scheduled` record carrying the placement's node and cost on success.  The
previous record for that id, if any, does not influence the result. -/
theorem schedule_final_record (s : SchedulerState) (job : JobSpec) :
    get_job_state (schedule s job).1 job.id =
      some (match (schedule s job).2 with
        | Except.ok p =>
            { job_id := job.id
              status := JobStatus.Scheduled
              assigned_node := some p.node_id
              estimated_cost := some p.estimated_cost }
        | Except.error _ =>
            { job_id := job.id
              status := JobStatus.Failed
              assigned_node := none
              estimated_cost := none }) := by
  cases hempty : s.available_nodes.isEmpty with
  | true =>
    rw [schedule_eq_empty s job hempty]
    show lookupJob ((insertJob s.job_states (createJobState job.id)).map
      (applyUpdate job.id JobStatus.Failed none)) job.id = _
    rw [lookupJob_update_insert, applyUpdate_createJobState]
  | false =>
    cases hplace : placeJob job s.available_nodes with
    | none =>
      rw [schedule_eq_no_feasible s job hempty hplace]
      show lookupJob ((insertJob s.job_states (createJobState job.id)).map
        (applyUpdate job.id JobStatus.Failed none)) job.id = _
      rw [lookupJob_update_insert, applyUpdate_createJobState]
    | some p =>
      rw [schedule_eq_ok s job p hempty hplace]
      show lookupJob (((insertJob s.job_states (createJobState job.id)).map
        (applyUpdate job.id JobStatus.Scheduled (some p.node_id))).map
        (applySetCost job.id p.estimated_cost)) job.id = _
      rw [lookupJob_map _ (applySetCost_job_id job.id p.estimated_cost),
        lookupJob_update_insert, Option.map_some', final_ok_record]

theorem schedule_error_record (s : SchedulerState) (job : JobSpec) (e : SchedError)
    (h : (schedule s job).2 = Except.error e) :
    get_job_state (schedule s job).1 job.id =
      some { job_id := job.id, status := JobStatus.Failed,
             assigned_node := none, estimated_cost := none } := by
  have hfr := schedule_final_record s job
  rw [h] at hfr
  exact hfr

theorem schedule_ok_record (s : SchedulerState) (job : JobSpec) (p : Placement)
    (h : (schedule s job).2 = Except.ok p) :
    get_job_state (schedule s job).1 job.id =
      some { job_id := job.id, status := JobStatus.Scheduled,
             assigned_node := some p.node_id, estimated_cost := some p.estimated_cost } := by
  have hfr := schedule_final_record s job
  rw [h] at hfr
  exact hfr

/-! ### Counting records per job id -/

theorem countP_key_map (f : JobState → JobState) (hf : ∀ st, (f st).job_id = st.job_id)
    (store : List JobState) (j : String) :
    (store.map f).countP (fun st => st.job_id == j) =
      store.countP (fun st => st.job_id == j) := by
  induction store with
  | nil => rfl
  | cons st rest ih =>
    simp only [List.map_cons, List.countP_cons, hf st, ih]

theorem countP_insertJob (store : List JobState) (entry : JobState)
    (h : store.countP (fun st => st.job_id == entry.job_id) ≤ 1) :
    (insertJob store entry).countP (fun st => st.job_id == entry.job_id) = 1 := by
  induction store with
  | nil => simp [insertJob, List.countP_cons, List.countP_nil]
  | cons st rest ih =>
    by_cases hp : (st.job_id == entry.job_id) = true
    · rw [insertJob, if_pos hp]
      have hr : rest.countP (fun st => st.job_id == entry.job_id) = 0 := by
        rw [List.countP_cons] at h
        simp only [hp, if_true] at h
        omega
      simp [List.countP_cons, hr]
    · rw [insertJob, if_neg hp]
      rw [Bool.not_eq_true] at hp
      rw [List.countP_cons] at h ⊢
      simp only [hp, Bool.false_eq_true, if_false, Nat.add_zero] at h ⊢
      exact ih h

/-! ### Claim theorems -/

/-- C5: every call to `schedule`, successful or not, leaves the node
registry unchanged — no capacity field of any node is decremented, so a
second `schedule` call sees the same snapshot. -/
theorem schedule_preserves_registry (s : SchedulerState) (job : JobSpec) :
    (schedule s job).1.available_nodes = s.available_nodes := by
  cases hempty : s.available_nodes.isEmpty with
  | true =>
    rw [schedule_eq_empty s job hempty]
    rfl
  | false =>
    cases hplace : placeJob job s.available_nodes with
    | none =>
      rw [schedule_eq_no_feasible s job hempty hplace]
      rfl
    | some p =>
      rw [schedule_eq_ok s job p hempty hplace]
      rfl

/-- C6: the resource-fit filter accepts a node exactly when the node's
available cpu, memory and gpu each cover the request, and the job's
`disk_gb` has no influence on the decision. -/
theorem check_resource_fit_spec (required : ResourceRequirements) (node : NodeInfo) :
    (check_resource_fit required node = true ↔
      (node.available_cpu ≥ required.cpu_cores ∧
        node.available_memory_gb ≥ required.memory_gb ∧
        node.available_gpu ≥ required.gpu_count)) ∧
    (∀ d : Nat, check_resource_fit { required with disk_gb := d } node =
      check_resource_fit required node) := by
  constructor
  · simp [check_resource_fit, Bool.and_eq_true, decide_eq_true_iff, and_assoc]
  · intro d
    rfl

/-- C10: the latency estimate is exactly 50ms base plus 50ms under cpu
pressure (`available_cpu < 2`) plus 30ms under memory pressure
(`available_memory_gb < 2`), a pure function of those two node fields, so
its value is always one of 50, 80, 100 or 130. -/
theorem estimate_latency_spec (node : NodeInfo) :
    estimate_latency node =
      50 + (if node.available_cpu < 2 then 50 else 0)
         + (if node.available_memory_gb < 2 then 30 else 0) ∧
    (estimate_latency node = 50 ∨ estimate_latency node = 80 ∨
      estimate_latency node = 100 ∨ estimate_latency node = 130) := by
  refine ⟨rfl, ?_⟩
  unfold estimate_latency
  by_cases h1 : node.available_cpu < 2 <;> by_cases h2 : node.available_memory_gb < 2 <;>
    simp [h1, h2]

/-- C1: whenever some node of the snapshot passes the resource-fit, latency
and budget filters, `schedule` succeeds with a placement on a feasible node
of minimum total cost among all feasible nodes, with
`total_usd = cost_per_hour * 1.0 * 1.0` and zero data-transfer and idle
components. -/
theorem schedule_selects_min_cost_node (s : SchedulerState) (job : JobSpec)
    (n0 : NodeInfo) (hmem : n0 ∈ s.available_nodes) (hfeas : feasible job n0 = true) :
    ∃ p n, (schedule s job).2 = Except.ok p ∧
      n ∈ s.available_nodes ∧ feasible job n = true ∧
      p.node_id = n.id ∧
      p.estimated_cost.total_usd = n.cost_per_hour * 1 * 1 ∧
      p.estimated_cost.data_transfer_usd = 0 ∧
      p.estimated_cost.idle_opportunity_usd = 0 ∧
      ∀ m ∈ s.available_nodes, feasible job m = true →
        p.estimated_cost.total_usd ≤ (total_cost m.cost_per_hour 1 1 0 0 0 0).total_usd := by
  have hempty : s.available_nodes.isEmpty = false := by
    cases hl : s.available_nodes with
    | nil => rw [hl] at hmem; cases hmem
    | cons a l => rfl
  cases hplace : placeJob job s.available_nodes with
  | none =>
    rw [placeJob_eq_none_iff] at hplace
    rw [hplace n0 hmem] at hfeas
    cases hfeas
  | some p =>
    rcases placeJob_some_spec job s.available_nodes p hplace with ⟨n, hn, hfn, hpn, hminimal⟩
    refine ⟨p, n, ?_, hn, hfn, ?_, ?_, ?_, ?_, ?_⟩
    · rw [schedule_eq_ok s job p hempty hplace]
    · rw [hpn]
      rfl
    · rw [hpn, mkPlacement_total]
      show compute_cost n.cost_per_hour 1 1 + data_transfer_cost 0 0 +
        idle_opportunity_cost 0 0 = n.cost_per_hour * 1 * 1
      simp [compute_cost, data_transfer_cost, idle_opportunity_cost]
    · rw [hpn]
      show data_transfer_cost 0 0 = 0
      simp [data_transfer_cost]
    · rw [hpn]
      show idle_opportunity_cost 0 0 = 0
      simp [idle_opportunity_cost]
    · intro m hm hfm
      rw [hpn, mkPlacement_total]
      exact hminimal m hm hfm

/-- C9: `TotalCost.new` always sets `total_usd` to the plain sum of the
three components (which it stores unchanged), and every placement the core
produces carries a `TotalCost` satisfying that additivity invariant — no
operation adjusts `total_usd` independently. -/
theorem totalCost_additive_invariant (c d i : ℚ) (s : SchedulerState) (job : JobSpec) :
    (TotalCost.new c d i).total_usd = c + d + i ∧
    (TotalCost.new c d i).compute_usd = c ∧
    (TotalCost.new c d i).data_transfer_usd = d ∧
    (TotalCost.new c d i).idle_opportunity_usd = i ∧
    (match (schedule s job).2 with
      | Except.ok p =>
          p.estimated_cost.total_usd =
            p.estimated_cost.compute_usd + p.estimated_cost.data_transfer_usd +
              p.estimated_cost.idle_opportunity_usd
      | Except.error _ => True) := by
  refine ⟨rfl, rfl, rfl, rfl, ?_⟩
  cases hempty : s.available_nodes.isEmpty with
  | true =>
    rw [schedule_eq_empty s job hempty]
    trivial
  | false =>
    cases hplace : placeJob job s.available_nodes with
    | none =>
      rw [schedule_eq_no_feasible s job hempty hplace]
      trivial
    | some p =>
      rw [schedule_eq_ok s job p hempty hplace]
      show p.estimated_cost.total_usd = _
      rcases placeJob_some_spec job s.available_nodes p hplace with ⟨n, _, _, hpn, _⟩
      rw [hpn]
      rfl

/-- C7: on a non-empty snapshot in which no node passes all three filters,
`schedule` fails with the single `NoFeasiblePlacement` failure kind, and the
job's record ends `Failed` with no assigned node. -/
theorem schedule_no_feasible_fails (s : SchedulerState) (job : JobSpec)
    (hne : s.available_nodes ≠ [])
    (hall : ∀ n ∈ s.available_nodes, feasible job n = false) :
    (schedule s job).2 = Except.error SchedError.NoFeasiblePlacement ∧
    get_job_state (schedule s job).1 job.id =
      some { job_id := job.id, status := JobStatus.Failed,
             assigned_node := none, estimated_cost := none } := by
  have hempty : s.available_nodes.isEmpty = false := by
    cases hl : s.available_nodes with
    | nil => exact absurd hl hne
    | cons a l => rfl
  have hplace : placeJob job s.available_nodes = none :=
    (placeJob_eq_none_iff job s.available_nodes).mpr hall
  have h2 : (schedule s job).2 = Except.error SchedError.NoFeasiblePlacement := by
    rw [schedule_eq_no_feasible s job hempty hplace]
  exact ⟨h2, schedule_error_record s job SchedError.NoFeasiblePlacement h2⟩

/-- C8: `schedule` against an empty registry fails with `NoNodesAvailable`,
the store ends with exactly one record for the submitted job id, and that
record is `Failed` with no assigned node and no estimated cost. -/
theorem schedule_empty_cluster (s : SchedulerState) (job : JobSpec)
    (h0 : s.available_nodes = [])
    (h1 : s.job_states.countP (fun st => st.job_id == job.id) ≤ 1) :
    (schedule s job).2 = Except.error SchedError.NoNodesAvailable ∧
    (schedule s job).1.job_states.countP (fun st => st.job_id == job.id) = 1 ∧
    get_job_state (schedule s job).1 job.id =
      some { job_id := job.id, status := JobStatus.Failed,
             assigned_node := none, estimated_cost := none } := by
  have hempty : s.available_nodes.isEmpty = true := by
    rw [h0]
    rfl
  have h2 : (schedule s job).2 = Except.error SchedError.NoNodesAvailable := by
    rw [schedule_eq_empty s job hempty]
  refine ⟨h2, ?_, schedule_error_record s job SchedError.NoNodesAvailable h2⟩
  rw [schedule_eq_empty s job hempty]
  show (((insertJob s.job_states (createJobState job.id)).map
    (applyUpdate job.id JobStatus.Failed none)).countP
      (fun st => st.job_id == job.id)) = 1
  rw [countP_key_map _ (applyUpdate_job_id job.id JobStatus.Failed none)]
  exact countP_insertJob s.job_states (createJobState job.id) h1

/-- C3 amended: resubmitting a job id does not fail and does not preserve
the existing record — `schedule` overwrites it with a fresh record whose
final contents depend only on the scheduling outcome (`Failed` with cleared
node and cost on failure, `Scheduled` with the new node and cost on
success), regardless of what was stored before. -/
theorem schedule_overwrites_existing_record (s : SchedulerState) (job : JobSpec) :
    get_job_state (schedule s job).1 job.id =
      some (match (schedule s job).2 with
        | Except.ok p =>
            { job_id := job.id
              status := JobStatus.Scheduled
              assigned_node := some p.node_id
              estimated_cost := some p.estimated_cost }
        | Except.error _ =>
            { job_id := job.id
              status := JobStatus.Failed
              assigned_node := none
              estimated_cost := none }) :=
  schedule_final_record s job

/-! ### Concrete instances used by counterexamples and witnesses -/

def nodeTieA : NodeInfo :=
  { id := "node-a", available_cpu := 4, available_memory_gb := 8,
    available_gpu := 0, location := "vps-1", cost_per_hour := 1 }

def nodeTieB : NodeInfo :=
  { id := "node-b", available_cpu := 4, available_memory_gb := 8,
    available_gpu := 0, location := "vps-2", cost_per_hour := 1 }

def jobTie : JobSpec :=
  { id := "job-tie", job_type := JobType.Training,
    resources := { cpu_cores := 1, memory_gb := 1, gpu_count := 0, disk_gb := 0 },
    sla := { max_latency_ms := 1000, max_budget_usd := none, deadline := none } }

/-- C2 (the code violates the claim): with two feasible nodes of exactly
equal `total_usd`, the winner of the placement loop is decided by the
iteration order of the node snapshot — the order Rust's randomly seeded
`HashMap` leaves unspecified across runs.  The two possible iteration
orders of the same two registered nodes yield different winners. -/
theorem placeJob_tie_winner_depends_on_order :
    (placeJob jobTie [nodeTieA, nodeTieB]).map Placement.node_id = some "node-a" ∧
    (placeJob jobTie [nodeTieB, nodeTieA]).map Placement.node_id = some "node-b" ∧
    nodeTieA.id ≠ nodeTieB.id := by
  refine ⟨?_, ?_, by decide⟩ <;>
    norm_num [placeJob, considerNode, check_resource_fit, estimate_latency,
      budgetExceeded, betterThan, mkPlacement, jobTie, nodeTieA, nodeTieB,
      total_cost, TotalCost.new, compute_cost, data_transfer_cost,
      idle_opportunity_cost]

def priorRecord : JobState :=
  { job_id := "job-1", status := JobStatus.Completed,
    assigned_node := some "node-9",
    estimated_cost := some { compute_usd := 2, data_transfer_usd := 0,
                             idle_opportunity_usd := 0, total_usd := 2 } }

def sPrior : SchedulerState :=
  { available_nodes := [nodeTieA], job_states := [priorRecord] }

def jobResubmit : JobSpec :=
  { id := "job-1", job_type := JobType.Inference,
    resources := { cpu_cores := 1, memory_gb := 1, gpu_count := 0, disk_gb := 0 },
    sla := { max_latency_ms := 1000, max_budget_usd := none, deadline := none } }

/-- C3 fails on the code: submitting a job whose id already has a record
(here a `Completed` record with an assigned node and a cost) neither fails
nor leaves the record unchanged — the call succeeds and the stored record
is silently replaced. -/
theorem schedule_resubmission_resets_record_cex :
    (schedule sPrior jobResubmit).2.toOption.isSome = true ∧
    get_job_state (schedule sPrior jobResubmit).1 "job-1" ≠ some priorRecord := by
  constructor
  · rfl
  · decide

def sTerminal : SchedulerState :=
  { available_nodes := []
    job_states := [{ job_id := "job-done", status := JobStatus.Completed,
                     assigned_node := some "node-9", estimated_cost := none }] }

/-- C4 fails on the code: a record whose status is the terminal
`Completed` is moved to `Running` by a plain `update_job_state` call — no
operation guards terminal statuses. -/
theorem update_job_state_leaves_completed_cex :
    (get_job_state sTerminal "job-done").map JobState.status = some JobStatus.Completed ∧
    (get_job_state (update_job_state sTerminal "job-done" JobStatus.Running none)
        "job-done").map JobState.status = some JobStatus.Running := by
  constructor
  · decide
  · decide

/-- C4 amended: terminal statuses are not protected — `update_job_state`
overwrites the status of any existing record unconditionally, including
records whose status is `Completed` or `Failed`. -/
theorem update_job_state_overwrites_terminal (s : SchedulerState) (job_id : String)
    (status : JobStatus) (assigned_node : Option String) (st : JobState)
    (h : get_job_state s job_id = some st)
    (hterm : st.status = JobStatus.Completed ∨ st.status = JobStatus.Failed) :
    (get_job_state (update_job_state s job_id status assigned_node) job_id).map
      JobState.status = some status := by
  rw [get_job_state, update_job_state]
  show (lookupJob (s.job_states.map (applyUpdate job_id status assigned_node))
    job_id).map JobState.status = some status
  rw [lookupJob_map _ (applyUpdate_job_id job_id status assigned_node)]
  rw [get_job_state] at h
  have hkey : (st.job_id == job_id) = true := by
    rw [lookupJob] at h
    have hp := List.find?_some h
    exact hp
  rw [h]
  simp [applyUpdate, hkey]

/-! ### Witnesses -/

def nodeCheap : NodeInfo :=
  { id := "node-cheap", available_cpu := 8, available_memory_gb := 32,
    available_gpu := 1, location := "vps-1", cost_per_hour := 1 }

def nodeCostly : NodeInfo :=
  { id := "node-costly", available_cpu := 8, available_memory_gb := 32,
    available_gpu := 1, location := "vps-2", cost_per_hour := 4 }

def jobFourCores : JobSpec :=
  { id := "job-w", job_type := JobType.Training,
    resources := { cpu_cores := 4, memory_gb := 8, gpu_count := 0, disk_gb := 10 },
    sla := { max_latency_ms := 1000, max_budget_usd := none, deadline := none } }

def sTwoNodes : SchedulerState :=
  { available_nodes := [nodeCheap, nodeCostly], job_states := [] }

/-- Witness for C1: a cluster with a cheap and a costly feasible node and a
4-core/8GB job satisfies the hypotheses of the minimum-cost theorem. -/
theorem schedule_selects_min_cost_node_witness :
    ∃ p n, (schedule sTwoNodes jobFourCores).2 = Except.ok p ∧
      n ∈ sTwoNodes.available_nodes ∧ feasible jobFourCores n = true ∧
      p.node_id = n.id ∧
      p.estimated_cost.total_usd = n.cost_per_hour * 1 * 1 ∧
      p.estimated_cost.data_transfer_usd = 0 ∧
      p.estimated_cost.idle_opportunity_usd = 0 ∧
      ∀ m ∈ sTwoNodes.available_nodes, feasible jobFourCores m = true →
        p.estimated_cost.total_usd ≤ (total_cost m.cost_per_hour 1 1 0 0 0 0).total_usd :=
  schedule_selects_min_cost_node sTwoNodes jobFourCores nodeCheap (by decide) (by decide)

def nodeTiny : NodeInfo :=
  { id := "node-tiny", available_cpu := 1, available_memory_gb := 1,
    available_gpu := 0, location := "vps-3", cost_per_hour := 1 }

def jobBig : JobSpec :=
  { id := "job-big", job_type := JobType.Training,
    resources := { cpu_cores := 8, memory_gb := 32, gpu_count := 0, disk_gb := 0 },
    sla := { max_latency_ms := 1000, max_budget_usd := none, deadline := none } }

def sTiny : SchedulerState :=
  { available_nodes := [nodeTiny], job_states := [] }

/-- Witness for C7: an 8-core/32GB job against a single 1-core/1GB node. -/
theorem schedule_no_feasible_fails_witness :
    (schedule sTiny jobBig).2 = Except.error SchedError.NoFeasiblePlacement ∧
    get_job_state (schedule sTiny jobBig).1 "job-big" =
      some { job_id := "job-big", status := JobStatus.Failed,
             assigned_node := none, estimated_cost := none } :=
  schedule_no_feasible_fails sTiny jobBig (by decide) (by decide)

def jobOnEmpty : JobSpec :=
  { id := "job-e", job_type := JobType.Inference,
    resources := { cpu_cores := 1, memory_gb := 1, gpu_count := 0, disk_gb := 0 },
    sla := { max_latency_ms := 100, max_budget_usd := none, deadline := none } }

def sNoNodes : SchedulerState :=
  { available_nodes := [], job_states := [] }

/-- Witness for C8: scheduling against an empty registry. -/
theorem schedule_empty_cluster_witness :
    (schedule sNoNodes jobOnEmpty).2 = Except.error SchedError.NoNodesAvailable ∧
    (schedule sNoNodes jobOnEmpty).1.job_states.countP
      (fun st => st.job_id == "job-e") = 1 ∧
    get_job_state (schedule sNoNodes jobOnEmpty).1 "job-e" =
      some { job_id := "job-e", status := JobStatus.Failed,
             assigned_node := none, estimated_cost := none } :=
  schedule_empty_cluster sNoNodes jobOnEmpty rfl (by decide)

/-- Witness for the amended C4: the terminal `Completed` record of
`sTerminal` is overwritten to `Running`. -/
theorem update_job_state_overwrites_terminal_witness :
    (get_job_state (update_job_state sTerminal "job-done" JobStatus.Running none)
        "job-done").map JobState.status = some JobStatus.Running :=
  update_job_state_overwrites_terminal sTerminal "job-done" JobStatus.Running none
    { job_id := "job-done", status := JobStatus.Completed,
      assigned_node := some "node-9", estimated_cost := none }
    (by decide) (Or.inl rfl)
